import Mathlib

/-!
Verification of the `seq-rs` persistent sequence container.

The Rust type `Seq<'a, T>` (src/src/lib.rs) is a recursive sum type with
three variants: `Empty`, `ConsRef(T, &Seq)` (borrowed tail) and
`ConsOwn(T, Box<Seq>)` (owned tail).  In this shallow embedding the
reference and the box both dissolve into the recursive occurrence of the
type itself; the two cons variants are kept distinct so that
representation-transparency properties remain meaningful statements.
-/

namespace SeqRs

/-- The sequence type, from `enum Seq<'a, T>` in src/src/lib.rs:
`Empty`, `ConsRef(T, &'a Seq<'a, T>)`, `ConsOwn(T, Box<Seq<'a, T>>)`. -/
inductive Seq (T : Type) : Type where
  | Empty : Seq T
  | ConsRef : T → Seq T → Seq T
  | ConsOwn : T → Seq T → Seq T
deriving Repr, DecidableEq

/-- `Seq::head`: returns the head element for either cons variant,
nothing for `Empty`. -/
def Seq.head {T : Type} : Seq T → Option T
  | .Empty => Option.none
  | .ConsRef ft1 _ => Option.some ft1
  | .ConsOwn ft1 _ => Option.some ft1

/-- `Seq::tail`: returns the tail sequence for either cons variant,
nothing for `Empty`. -/
def Seq.tail {T : Type} : Seq T → Option (Seq T)
  | .Empty => Option.none
  | .ConsRef _ rt1 => Option.some rt1
  | .ConsOwn _ rt1 => Option.some rt1

/-- `Seq::len`: 0 for `Empty`, `1 + rt1.len()` for either cons variant. -/
def Seq.len {T : Type} : Seq T → Nat
  | .Empty => 0
  | .ConsRef _ rt1 => 1 + rt1.len
  | .ConsOwn _ rt1 => 1 + rt1.len

/-- `impl PartialEq for Seq::eq`, clause for clause: empty/empty is true,
each cons/cons pair compares heads with the element equality and recurses
on the tails, every remaining pair (empty against a cons) is false. -/
def Seq.beq {T : Type} [DecidableEq T] : Seq T → Seq T → Bool
  | .Empty, .Empty => true
  | .ConsRef ft1 rt1, .ConsRef ft2 rt2 => decide (ft1 = ft2) && Seq.beq rt1 rt2
  | .ConsRef ft1 rt1, .ConsOwn ft2 rt2 => decide (ft1 = ft2) && Seq.beq rt1 rt2
  | .ConsOwn ft1 rt1, .ConsRef ft2 rt2 => decide (ft1 = ft2) && Seq.beq rt1 rt2
  | .ConsOwn ft1 rt1, .ConsOwn ft2 rt2 => decide (ft1 = ft2) && Seq.beq rt1 rt2
  | _, _ => false

/-- `impl Default for Seq`: `default()` yields `Seq::Empty`. -/
def Seq.defaultSeq (T : Type) : Seq T := Seq.Empty

/-- `fn empty<T>()`: the shared static empty sequence value. -/
def emptySeq (T : Type) : Seq T := Seq.Empty

/-- `impl fmt::Debug for Seq::fmt`, with the element rendering `dbg`
standing in for the element type's Debug instance: `Empty` prints the
marker `<>`; either cons variant prints the head followed by the marker
`,...` and never touches the tail. -/
def Seq.fmtDebug {T : Type} (dbg : T → String) : Seq T → String
  | .Empty => "<>"
  | .ConsRef ft _ => "<" ++ dbg ft ++ ",...>"
  | .ConsOwn ft _ => "<" ++ dbg ft ++ ",...>"

/-- The iterator state, from `struct SeqIterator<'a, T> { cur: &'a Seq }`. -/
structure SeqIterator (T : Type) : Type where
  cur : Seq T
deriving Repr, DecidableEq

/-- `impl IntoIterator for &Seq::into_iter`: a fresh cursor positioned at
the sequence itself. -/
def Seq.intoIter {T : Type} (s : Seq T) : SeqIterator T := ⟨s⟩

/-- `impl Iterator for SeqIterator::next`: on `Empty` yields nothing and
leaves the cursor in place; on either cons variant yields the head and
moves the cursor to the tail.  The Rust method mutates `self` and returns
an `Option`; here the post-state is returned alongside. -/
def SeqIterator.next {T : Type} : SeqIterator T → Option T × SeqIterator T
  | ⟨.Empty⟩ => (Option.none, ⟨.Empty⟩)
  | ⟨.ConsRef ft rt⟩ => (Option.some ft, ⟨rt⟩)
  | ⟨.ConsOwn ft rt⟩ => (Option.some ft, ⟨rt⟩)

/-- Fully draining a cursor: the list of elements produced by repeated
`next` until it yields nothing. -/
def SeqIterator.drain {T : Type} : SeqIterator T → List T
  | ⟨.Empty⟩ => []
  | ⟨.ConsRef ft rt⟩ => ft :: SeqIterator.drain ⟨rt⟩
  | ⟨.ConsOwn ft rt⟩ => ft :: SeqIterator.drain ⟨rt⟩

/-- Observation function: the elements of a sequence in head-to-tail
order, forgetting the borrowed/owned distinction. -/
def Seq.toList {T : Type} : Seq T → List T
  | .Empty => []
  | .ConsRef ft rt => ft :: rt.toList
  | .ConsOwn ft rt => ft :: rt.toList

/-- The spec's `construct borrowed node`(value, tailRef): `Seq::ConsRef`. -/
def construct {T : Type} (v : T) (tailRef : Seq T) : Seq T := Seq.ConsRef v tailRef

/-- The `seqdef!` shorthand, from its expansion in src/src/lib.rs: starting
from the base, each listed value is pushed by one borrowed-node
construction `ConsRef(value, previous)`, in list order. -/
def seqdefFrom {T : Type} (base : Seq T) (vs : List T) : Seq T :=
  vs.foldl (fun acc v => Seq.ConsRef v acc) base

/-- The `seqdef!` arm without an explicit base: the base is `Seq::Empty`. -/
def seqdefNoBase {T : Type} (vs : List T) : Seq T :=
  seqdefFrom Seq.Empty vs

/-- The spec's reading of the builder shorthand, written from its words:
`construct(v1, B)`, then `construct(v2, result)`, and so on. -/
def specBuild {T : Type} (base : Seq T) : List T → Seq T
  | [] => base
  | v :: vs => specBuild (construct v base) vs

/-- The typed errors of the bulk bounded construction (spec section 7). -/
inductive RolloutErr : Type where
  | EmptyInput : RolloutErr
  | CapacityExceeded : RolloutErr
deriving Repr, DecidableEq

/-- Modelled from the spec: the bulk bounded construction `rollout` of
spec section 4.6 has no implementation under src/ (only the sequence type
itself is there).  Faithful to the spec's words: it rejects a source with
zero values with `EmptyInput`, rejects a source with more values than the
capacity with `CapacityExceeded`, and otherwise chains the source values
onto `tailRef` by borrowed-node construction, the first-read value
innermost and the last-read value as the head of the returned top node. -/
def rollout {T : Type} (tailRef : Seq T) (capacity : Nat) (source : List T) :
    Except RolloutErr (Seq T) :=
  if source.isEmpty then Except.error RolloutErr.EmptyInput
  else if capacity < source.length then Except.error RolloutErr.CapacityExceeded
  else Except.ok (source.foldl (fun acc v => Seq.ConsRef v acc) tailRef)

/-- `Seq.beq` decides exactly equality of the element lists: the
representation tags on the cons nodes never influence the verdict. -/
theorem Seq.beq_iff_toList {T : Type} [DecidableEq T] (a b : Seq T) :
    Seq.beq a b = true ↔ a.toList = b.toList := by
  induction a generalizing b with
  | Empty =>
    cases b <;> simp [Seq.beq, Seq.toList]
  | ConsRef ft1 rt1 ih =>
    cases b <;> simp [Seq.beq, Seq.toList, ih]
  | ConsOwn ft1 rt1 ih =>
    cases b <;> simp [Seq.beq, Seq.toList, ih]

/-- C1: equality on sequences is structural and representation-transparent:
`Empty` equals `Empty`; two non-empty sequences are equal iff their heads
are equal under the element equality and their tails are recursively equal,
whatever mixture of borrowed and owned nodes either side uses; `Empty` is
never equal to a non-empty sequence; and any two sequences holding the same
elements in the same order compare equal. -/
theorem c1_equality_structural {T : Type} [DecidableEq T] :
    (Seq.beq (Seq.Empty : Seq T) Seq.Empty = true)
    ∧ (∀ a b : Seq T, a ≠ Seq.Empty → b ≠ Seq.Empty →
        (Seq.beq a b = true ↔
          a.head = b.head ∧
          Seq.beq (a.tail.getD Seq.Empty) (b.tail.getD Seq.Empty) = true))
    ∧ (∀ b : Seq T, b ≠ Seq.Empty →
        Seq.beq Seq.Empty b = false ∧ Seq.beq b Seq.Empty = false)
    ∧ (∀ a b : Seq T, a.toList = b.toList → Seq.beq a b = true) := by
  refine ⟨rfl, ?_, ?_, ?_⟩
  · intro a b ha hb
    cases a <;> cases b <;>
      simp_all [Seq.beq, Seq.head, Seq.tail]
  · intro b hb
    cases b <;> simp_all [Seq.beq]
  · intro a b h
    exact (Seq.beq_iff_toList a b).mpr h

/-- Witness for C1 at concrete inputs: the same elements `[3, 2]` built
once with all borrowed nodes and once with owned nodes compare equal, and
the head/tail characterization holds for the two builds. -/
theorem c1_equality_structural_witness :
    (Seq.ConsRef 3 (Seq.ConsRef 2 Seq.Empty) : Seq Nat) ≠ Seq.Empty
    ∧ (Seq.ConsOwn 3 (Seq.ConsOwn 2 Seq.Empty) : Seq Nat) ≠ Seq.Empty
    ∧ (Seq.beq (Seq.ConsRef 3 (Seq.ConsRef 2 Seq.Empty) : Seq Nat)
        (Seq.ConsOwn 3 (Seq.ConsOwn 2 Seq.Empty)) = true ↔
        (Seq.ConsRef 3 (Seq.ConsRef 2 Seq.Empty) : Seq Nat).head =
          (Seq.ConsOwn 3 (Seq.ConsOwn 2 Seq.Empty) : Seq Nat).head ∧
        Seq.beq
          ((Seq.ConsRef 3 (Seq.ConsRef 2 Seq.Empty) : Seq Nat).tail.getD Seq.Empty)
          ((Seq.ConsOwn 3 (Seq.ConsOwn 2 Seq.Empty) : Seq Nat).tail.getD Seq.Empty)
          = true)
    ∧ (Seq.beq (Seq.Empty : Seq Nat) (Seq.ConsRef 7 Seq.Empty) = false
        ∧ Seq.beq (Seq.ConsRef 7 Seq.Empty : Seq Nat) Seq.Empty = false) :=
  ⟨by decide, by decide,
    c1_equality_structural.2.1 _ _ (by decide) (by decide),
    c1_equality_structural.2.2.1 _ (by decide)⟩

/-- The length of a sequence is the length of its element list. -/
theorem Seq.len_eq_toList_length {T : Type} (s : Seq T) :
    s.len = s.toList.length := by
  induction s with
  | Empty => rfl
  | ConsRef ft rt ih => simp [Seq.len, Seq.toList, ih, Nat.add_comm]
  | ConsOwn ft rt ih => simp [Seq.len, Seq.toList, ih, Nat.add_comm]

/-- Draining a fresh cursor lists the elements in head-to-tail order. -/
theorem SeqIterator.drain_intoIter {T : Type} (s : Seq T) :
    (s.intoIter).drain = s.toList := by
  induction s with
  | Empty => simp [Seq.intoIter, SeqIterator.drain, Seq.toList]
  | ConsRef ft rt ih => simpa [Seq.intoIter, SeqIterator.drain, Seq.toList] using ih
  | ConsOwn ft rt ih => simpa [Seq.intoIter, SeqIterator.drain, Seq.toList] using ih

/-- Pushing a list of values by repeated borrowed-node construction
reverses it onto the base's element list. -/
theorem seqdefFrom_toList {T : Type} (vs : List T) (base : Seq T) :
    (seqdefFrom base vs).toList = vs.reverse ++ base.toList := by
  induction vs generalizing base with
  | nil => simp [seqdefFrom]
  | cons v vs ih =>
    have h : seqdefFrom base (v :: vs) = seqdefFrom (Seq.ConsRef v base) vs := rfl
    simp [h, ih, Seq.toList]

/-- C4: fully draining a fresh cursor over a sequence `s` produces exactly
`s.len` elements, in head-to-tail order; repeated `next` drives the drain
(yielding nothing ends it, yielding an element prepends it); on `Empty`
the cursor yields nothing and stays at `Empty`, so it never resets; and
two fresh cursors over the same sequence drain to the same list. -/
theorem c4_iterator_drain {T : Type} :
    (∀ s : Seq T, (s.intoIter).drain.length = s.len)
    ∧ (∀ s : Seq T, (s.intoIter).drain = s.toList)
    ∧ ((SeqIterator.mk (Seq.Empty : Seq T)).next
        = (Option.none, SeqIterator.mk Seq.Empty))
    ∧ (∀ it : SeqIterator T, it.next.1 = Option.none → it.drain = [])
    ∧ (∀ (it : SeqIterator T) (x : T) (it2 : SeqIterator T),
        it.next = (Option.some x, it2) → it.drain = x :: it2.drain)
    ∧ (∀ s : Seq T, (s.intoIter).drain = (s.intoIter).drain) := by
  refine ⟨?_, SeqIterator.drain_intoIter, rfl, ?_, ?_, fun _ => rfl⟩
  · intro s
    rw [SeqIterator.drain_intoIter, Seq.len_eq_toList_length]
  · intro it h
    obtain ⟨cur⟩ := it
    cases cur <;> simp_all [SeqIterator.next, SeqIterator.drain]
  · intro it x it2 h
    obtain ⟨cur⟩ := it
    cases cur <;> simp_all [SeqIterator.next, SeqIterator.drain]

/-- Witness for C4 at concrete inputs: on the sequence `[2, 1]` the next
steps produce the elements and then end. -/
theorem c4_iterator_drain_witness :
    ((SeqIterator.mk (Seq.ConsRef 2 (Seq.ConsRef 1 Seq.Empty) : Seq Nat)).next.1
      = Option.none → (SeqIterator.mk
        (Seq.ConsRef 2 (Seq.ConsRef 1 Seq.Empty) : Seq Nat)).drain = [])
    ∧ ((SeqIterator.mk (Seq.ConsRef 2 (Seq.ConsRef 1 Seq.Empty) : Seq Nat)).next
        = (Option.some 2, SeqIterator.mk (Seq.ConsRef 1 Seq.Empty)) →
        (SeqIterator.mk (Seq.ConsRef 2 (Seq.ConsRef 1 Seq.Empty) : Seq Nat)).drain
          = 2 :: (SeqIterator.mk (Seq.ConsRef 1 Seq.Empty : Seq Nat)).drain) :=
  ⟨c4_iterator_drain.2.2.2.1 _,
    c4_iterator_drain.2.2.2.2.1 _ 2 (SeqIterator.mk (Seq.ConsRef 1 Seq.Empty))⟩

/-- C8: the builder shorthand starting from base `B` and pushing
`v1, ..., vk` in order coincides with repeated borrowed-node construction
`construct(v1, B)`, then `construct(v2, result)`, and so on; `vk` becomes
the head of the final value; with no base given, `Empty` is the base. -/
theorem c8_seqdef_refines_construct {T : Type} :
    (∀ (base : Seq T) (vs : List T), seqdefFrom base vs = specBuild base vs)
    ∧ (∀ vs : List T, seqdefNoBase vs = specBuild Seq.Empty vs)
    ∧ (∀ (base : Seq T) (vs : List T), vs ≠ [] →
        (seqdefFrom base vs).head = vs.getLast?) := by
  have hfold : ∀ (vs : List T) (base : Seq T), seqdefFrom base vs = specBuild base vs := by
    intro vs
    induction vs with
    | nil => intro base; rfl
    | cons v vs ih =>
      intro base
      have h : seqdefFrom base (v :: vs) = seqdefFrom (Seq.ConsRef v base) vs := rfl
      rw [h, ih]
      rfl
  refine ⟨fun base vs => hfold vs base, fun vs => hfold vs Seq.Empty, ?_⟩
  have hlast : ∀ (vs : List T) (v : T) (base : Seq T),
      (seqdefFrom base (v :: vs)).head = (v :: vs).getLast? := by
    intro vs
    induction vs with
    | nil => intro v base; rfl
    | cons v2 vs ih =>
      intro v base
      have h : seqdefFrom base (v :: v2 :: vs) = seqdefFrom (Seq.ConsRef v base) (v2 :: vs) := rfl
      rw [h, ih]
      simp [List.getLast?]
  intro base vs hne
  cases vs with
  | nil => exact absurd rfl hne
  | cons v vs => exact hlast vs v base

/-- Witness for C8 at a concrete input: pushing `[1, 2, 3]` onto the base
`[0]` puts 3 at the head. -/
theorem c8_seqdef_refines_construct_witness :
    ([1, 2, 3] : List Nat) ≠ []
    ∧ (seqdefFrom (Seq.ConsRef 0 Seq.Empty : Seq Nat) [1, 2, 3]).head
      = ([1, 2, 3] : List Nat).getLast? :=
  ⟨by decide, c8_seqdef_refines_construct.2.2 (Seq.ConsRef 0 Seq.Empty) [1, 2, 3] (by decide)⟩

/-- C2: the bulk bounded construction fails with `EmptyInput` on a source
with zero values, for every capacity, and fails with `CapacityExceeded`
whenever the source holds more values than the capacity; both failures
are ordinary result values of the total function `rollout`. -/
theorem c2_rollout_failures {T : Type} :
    (∀ (tailRef : Seq T) (capacity : Nat),
        rollout tailRef capacity [] = Except.error RolloutErr.EmptyInput)
    ∧ (∀ (tailRef : Seq T) (capacity : Nat) (source : List T),
        capacity < source.length →
        rollout tailRef capacity source = Except.error RolloutErr.CapacityExceeded) := by
  constructor
  · intro tailRef capacity
    rfl
  · intro tailRef capacity source h
    have hne : source.isEmpty = false := by
      cases source with
      | nil => simp at h
      | cons v vs => rfl
    simp [rollout, hne, h]

/-- Witness for C2 at a concrete input: five values with capacity four
exceed the capacity. -/
theorem c2_rollout_failures_witness :
    (4 < ([10, 11, 12, 13, 14] : List Nat).length)
    ∧ rollout (Seq.Empty : Seq Nat) 4 [10, 11, 12, 13, 14]
      = Except.error RolloutErr.CapacityExceeded :=
  ⟨by decide, c2_rollout_failures.2 Seq.Empty 4 [10, 11, 12, 13, 14] (by decide)⟩

/-- C3: when the source is non-empty and fits the capacity, `rollout`
succeeds with a chain of exactly one new node per source value, the
source read in order: the first value is the innermost node (its tail is
`tailRef`) and the last value is the head of the returned top node; the
result is total, so there is no partial success. -/
theorem c3_rollout_success {T : Type} (tailRef : Seq T) (capacity : Nat)
    (source : List T) (hne : source ≠ []) (hcap : source.length ≤ capacity) :
    ∃ top : Seq T,
      rollout tailRef capacity source = Except.ok top
      ∧ top.len = source.length + tailRef.len
      ∧ top.toList = source.reverse ++ tailRef.toList
      ∧ top.head = source.getLast? := by
  have hempty : source.isEmpty = false := by
    cases source with
    | nil => exact absurd rfl hne
    | cons v vs => rfl
  have hlt : ¬ capacity < source.length := Nat.not_lt.mpr hcap
  refine ⟨seqdefFrom tailRef source, ?_, ?_, ?_, ?_⟩
  · simp [rollout, hempty, hlt]
    rfl
  · rw [Seq.len_eq_toList_length, seqdefFrom_toList, Seq.len_eq_toList_length]
    simp
  · exact seqdefFrom_toList source tailRef
  · cases source with
    | nil => exact absurd rfl hne
    | cons v vs =>
      have hh : ∀ (ws : List T) (w : T) (base : Seq T),
          (seqdefFrom base (w :: ws)).head = (w :: ws).getLast? := by
        intro ws
        induction ws with
        | nil => intro w base; rfl
        | cons w2 ws ih =>
          intro w base
          have h : seqdefFrom base (w :: w2 :: ws)
              = seqdefFrom (Seq.ConsRef w base) (w2 :: ws) := rfl
          rw [h, ih]
          simp [List.getLast?]
      exact hh vs v tailRef

/-- Witness for C3 at a concrete input: rolling `[0, 1, 2, 3]` with
capacity 4 onto `Empty` succeeds. -/
theorem c3_rollout_success_witness :
    ([0, 1, 2, 3] : List Nat) ≠ [] ∧ ([0, 1, 2, 3] : List Nat).length ≤ 4
    ∧ ∃ top : Seq Nat,
        rollout Seq.Empty 4 [0, 1, 2, 3] = Except.ok top
        ∧ top.len = ([0, 1, 2, 3] : List Nat).length + (Seq.Empty : Seq Nat).len
        ∧ top.toList = ([0, 1, 2, 3] : List Nat).reverse ++ (Seq.Empty : Seq Nat).toList
        ∧ top.head = ([0, 1, 2, 3] : List Nat).getLast? :=
  ⟨by decide, by decide,
    c3_rollout_success Seq.Empty 4 [0, 1, 2, 3] (by decide) (by decide)⟩

/-- C5: `head` returns no value on `Empty` and, for either node variant
(borrowed-tail or owned-tail), returns the node's element.  In the pure
embedding the element is returned as is, never rebuilt from the tail. -/
theorem c5_head_spec {T : Type} :
    ((Seq.Empty : Seq T).head = Option.none)
    ∧ (∀ (x : T) (t : Seq T), (Seq.ConsRef x t).head = Option.some x)
    ∧ (∀ (x : T) (t : Seq T), (Seq.ConsOwn x t).head = Option.some x) :=
  ⟨rfl, fun _ _ => rfl, fun _ _ => rfl⟩

/-- C6: `tail` returns no value on `Empty`; on a borrowed node it returns
the borrowed tail, on an owned node the owned tail's value; it builds no
new node and leaves the sequence unchanged. -/
theorem c6_tail_spec {T : Type} :
    ((Seq.Empty : Seq T).tail = Option.none)
    ∧ (∀ (x : T) (t : Seq T), (Seq.ConsRef x t).tail = Option.some t)
    ∧ (∀ (x : T) (t : Seq T), (Seq.ConsOwn x t).tail = Option.some t) :=
  ⟨rfl, fun _ _ => rfl, fun _ _ => rfl⟩

/-- C7: `len` is a natural number, 0 on `Empty` and `1 + len tail` on
either node variant, defined by terminating structural recursion (in the
embedding every sequence value is acyclic by construction, matching the
acyclicity precondition; the code carries no runtime cycle guard). -/
theorem c7_len_spec {T : Type} :
    ((Seq.Empty : Seq T).len = 0)
    ∧ (∀ (x : T) (t : Seq T), (Seq.ConsRef x t).len = 1 + t.len)
    ∧ (∀ (x : T) (t : Seq T), (Seq.ConsOwn x t).len = 1 + t.len) :=
  ⟨rfl, fun _ _ => rfl, fun _ _ => rfl⟩

/-- C9: the Debug rendering prints the marker `<>` for `Empty` and, for
either node variant, the head element followed by the marker `,...`; the
output never depends on the tail, so the tail is never rendered. -/
theorem c9_debug_render {T : Type} (dbg : T → String) :
    ((Seq.Empty : Seq T).fmtDebug dbg = "<>")
    ∧ (∀ (x : T) (t : Seq T),
        (Seq.ConsRef x t).fmtDebug dbg = "<" ++ dbg x ++ ",...>")
    ∧ (∀ (x : T) (t : Seq T),
        (Seq.ConsOwn x t).fmtDebug dbg = "<" ++ dbg x ++ ",...>")
    ∧ (∀ (x : T) (t1 t2 : Seq T),
        (Seq.ConsRef x t1).fmtDebug dbg = (Seq.ConsRef x t2).fmtDebug dbg
        ∧ (Seq.ConsOwn x t1).fmtDebug dbg = (Seq.ConsOwn x t2).fmtDebug dbg) :=
  ⟨rfl, fun _ _ => rfl, fun _ _ => rfl, fun _ _ _ => ⟨rfl, rfl⟩⟩

/-- C10: the accessors agree on emptiness: `head` yields a value iff
`tail` does, both yield no value exactly when `len` is 0, and the
default-constructed sequence satisfies the empty side of all three. -/
theorem c10_accessors_agree {T : Type} :
    (∀ s : Seq T, (s.head.isSome ↔ s.tail.isSome))
    ∧ (∀ s : Seq T, (s.head = Option.none ↔ s.len = 0))
    ∧ (∀ s : Seq T, (s.tail = Option.none ↔ s.len = 0))
    ∧ ((Seq.defaultSeq T).head = Option.none
        ∧ (Seq.defaultSeq T).tail = Option.none
        ∧ (Seq.defaultSeq T).len = 0) := by
  refine ⟨?_, ?_, ?_, rfl, rfl, rfl⟩ <;>
    intro s <;> cases s <;> simp [Seq.head, Seq.tail, Seq.len]

end SeqRs
